import Mathlib

/-!
Verification of the weii balance-board measurement pipeline
(`src/weii/cli.py`), shallowly embedded in Lean 4.

Sensor weights are modelled as rationals. A `Frame` is one synchronized
reading of the four corner sensors; the frame source is modelled as an
infinite stream `Nat → Frame` of the successive values returned by
`get_raw_measurement`.
-/

/-- One 4-channel sensor reading `(TL, TR, BL, BR)` in kg. -/
structure Frame where
  tl : ℚ
  tr : ℚ
  bl : ℚ
  br : ℚ
deriving DecidableEq

/-- `sum(measurement)` in `read_data`: the total of the four channels. -/
def frameSum (f : Frame) : ℚ :=
  f.tl + f.tr + f.bl + f.br

/-- `np.median`: sort, take the middle element (odd length) or the mean of
the two middle elements (even length). -/
def median (l : List ℚ) : ℚ :=
  let sorted := List.insertionSort (· ≤ ·) l
  let n := l.length
  if n % 2 = 1 then sorted.getD (n / 2) 0
  else (sorted.getD (n / 2 - 1) 0 + sorted.getD (n / 2) 0) / 2

/-- The loop body of `read_data` (cli.py lines 112-121): while fewer than
`samples` readings have been collected, read a measurement; if at least one
reading was already collected and the new measurement's channel sum is below
`threshold`, stop without appending; otherwise append.  `fuel` is the number
of readings still missing (`samples - len(sensor_readings)`), `i` the index
of the next measurement in the stream. -/
def readDataGo (source : Nat → Frame) (threshold : ℚ) :
    Nat → Nat → List Frame → List Frame
  | 0, _, acc => acc
  | fuel + 1, i, acc =>
    if 0 < acc.length ∧ frameSum (source i) < threshold then acc
    else readDataGo source threshold fuel (i + 1) (acc ++ [source i])

/-- `read_data(device, samples, threshold)` (cli.py lines 106-124), with the
device abstracted as the stream of measurements it produces. -/
def read_data (source : Nat → Frame) (samples : Nat) (threshold : ℚ) :
    List Frame :=
  readDataGo source threshold samples 0 []

/-- The dict returned by `calculate_metrics`. -/
structure Metrics where
  weight_kg : ℚ
  left_right_diff : ℚ
  front_back_diff : ℚ
  lr_diff_percent : ℚ
  fb_diff_percent : ℚ
  lr_side : String
  fb_side : String
deriving DecidableEq

/-- `calculate_metrics(sensor_readings)` (cli.py lines 127-157).  Columns are
extracted per channel and combined elementwise, exactly as the NumPy code
does; division of rationals is total (`x / 0 = 0`), where NumPy would emit
`nan`/`inf` — in either semantics the function returns a record and raises
no error. -/
def calculate_metrics (sensor_readings : List Frame) : Metrics :=
  let tl := sensor_readings.map Frame.tl
  let tr := sensor_readings.map Frame.tr
  let bl := sensor_readings.map Frame.bl
  let br := sensor_readings.map Frame.br
  let totals := List.zipWith (· + ·) (List.zipWith (· + ·) (List.zipWith (· + ·) tl tr) bl) br
  let total_weight := median totals
  let left := List.zipWith (· + ·) tl bl
  let right := List.zipWith (· + ·) tr br
  let lr_diff := median (List.zipWith (· - ·) left right)
  let lr_side := if lr_diff > 0 then "Left" else "Right"
  let lr_diff_abs := |lr_diff|
  let lr_diff_percent := lr_diff_abs / total_weight * 100
  let front := List.zipWith (· + ·) tl tr
  let back := List.zipWith (· + ·) bl br
  let fb_diff := median (List.zipWith (· - ·) front back)
  let fb_side := if fb_diff > 0 then "Front" else "Back"
  let fb_diff_abs := |fb_diff|
  let fb_diff_percent := fb_diff_abs / total_weight * 100
  { weight_kg := total_weight
    left_right_diff := lr_diff_abs
    front_back_diff := fb_diff_abs
    lr_diff_percent := lr_diff_percent
    fb_diff_percent := fb_diff_percent
    lr_side := lr_side
    fb_side := fb_side }

/-- `KG_TO_LBS = 2.20462` (cli.py line 38). -/
def KG_TO_LBS : ℚ := 220462 / 100000

/-- Round-half-to-even to an integer, as Python's `round` does. -/
def roundHalfEven (x : ℚ) : ℤ :=
  let f := Int.floor x
  let frac := x - f
  if frac < 1 / 2 then f
  else if 1 / 2 < frac then f + 1
  else if f % 2 = 0 then f else f + 1

/-- Python `round(x, 2)`. -/
def round2 (x : ℚ) : ℚ := (roundHalfEven (x * 100) : ℚ) / 100

/-- Python `round(x, 1)`, also `f"{x:.1f}"`. -/
def round1 (x : ℚ) : ℚ := (roundHalfEven (x * 10) : ℚ) / 10

/-- The `conversions` dict built by `format_output` (cli.py lines 161-175). -/
structure Conversions where
  weight : ℚ
  lr_diff : ℚ
  fb_diff : ℚ
  unit : String
deriving DecidableEq

/-- The unit-conversion step of `format_output`: when `lbs` is selected the
three weight-denominated fields are multiplied by `KG_TO_LBS`; otherwise they
are passed through; percentages are not part of this dict. -/
def format_conversions (metrics : Metrics) (use_lbs : Bool) : Conversions :=
  if use_lbs then
    { weight := metrics.weight_kg * KG_TO_LBS
      lr_diff := metrics.left_right_diff * KG_TO_LBS
      fb_diff := metrics.front_back_diff * KG_TO_LBS
      unit := "lbs" }
  else
    { weight := metrics.weight_kg
      lr_diff := metrics.left_right_diff
      fb_diff := metrics.front_back_diff
      unit := "kg" }

/-- One plane sub-record of the structured output. -/
structure PlaneRecord where
  increased_weight : String
  value : ℚ
  percentage : ℚ
deriving DecidableEq

/-- The structured record returned by `format_output` (cli.py lines 177-193). -/
structure OutputRecord where
  timestamp : String
  units : String
  total_weight : ℚ
  coronal : PlaneRecord
  saggital : PlaneRecord
deriving DecidableEq

/-- `format_output(metrics, use_lbs)` (cli.py lines 159-193).  The timestamp
string produced by `datetime.now().isoformat(timespec='seconds')` at
formatting time is abstracted as the parameter `timestamp`. -/
def format_output (metrics : Metrics) (use_lbs : Bool) (timestamp : String) :
    OutputRecord :=
  let conversions := format_conversions metrics use_lbs
  { timestamp := timestamp
    units := conversions.unit
    total_weight := round2 conversions.weight
    coronal :=
      { increased_weight := metrics.lr_side
        value := round2 conversions.lr_diff
        percentage := round1 metrics.lr_diff_percent }
    saggital :=
      { increased_weight := metrics.fb_side
        value := round2 conversions.fb_diff
        percentage := round1 metrics.fb_diff_percent } }

/-- `metrics` after `metrics['weight_kg'] += args.adjust`
(cli.py lines 218-219). -/
def adjusted_metrics (sensor_readings : List Frame) (adjust : ℚ) : Metrics :=
  let m := calculate_metrics sensor_readings
  { m with weight_kg := m.weight_kg + adjust }

/-- What a measurement session emits after metrics are computed: in
`weight_only` mode, just the total weight printed to one decimal
(cli.py line 222); otherwise the structured record from `format_output`
(cli.py line 225). -/
inductive SessionOutput where
  | weightOnly (w : ℚ)
  | structured (r : OutputRecord)
deriving DecidableEq

/-- The reporting tail of `measure_weight` (cli.py lines 217-225): compute
metrics, add the adjustment to the total weight, then either print the
one-decimal weight (weight_only) or build the structured record. -/
def measure_weight (sensor_readings : List Frame) (adjust : ℚ)
    (weight_only use_lbs : Bool) (timestamp : String) : SessionOutput :=
  let metrics := adjusted_metrics sensor_readings adjust
  if weight_only then SessionOutput.weightOnly (round1 metrics.weight_kg)
  else SessionOutput.structured (format_output metrics use_lbs timestamp)

/-- Spec-side reading of the pre-adjustment total: median of per-frame sums. -/
def preAdjustTotal (l : List Frame) : ℚ :=
  median (l.map frameSum)

/-- Spec-side signed left/right difference: median of per-frame
`(TL+BL)-(TR+BR)`. -/
def lrSigned (l : List Frame) : ℚ :=
  median (l.map fun f => f.tl + f.bl - (f.tr + f.br))

/-- Spec-side signed front/back difference: median of per-frame
`(TL+TR)-(BL+BR)`. -/
def fbSigned (l : List Frame) : ℚ :=
  median (l.map fun f => f.tl + f.tr - (f.bl + f.br))

/-- A concrete stream for witnesses: a light first frame (sum 15), a frame
below the threshold 20 next (sum 4), then heavy frames (sum 40). -/
def exStopSource (i : Nat) : Frame :=
  if i = 0 then ⟨15, 0, 0, 0⟩
  else if i = 1 then ⟨1, 1, 1, 1⟩
  else ⟨10, 10, 10, 10⟩

/-- A concrete stream for witnesses: every frame has sum 44, above any small
threshold. -/
def exFullSource (_ : Nat) : Frame := ⟨20, 10, 8, 6⟩

/-- A concrete frame for witnesses. -/
def exA : Frame := ⟨1, 2, 3, 4⟩

/-- A second concrete frame for witnesses, a permutation partner of `exA`
with the same channel sum. -/
def exB : Frame := ⟨4, 3, 2, 1⟩

/-- Combining two columns of the same frame list elementwise is the same as
mapping the combined projection over the frames. -/
theorem zipWith_map_same (h : ℚ → ℚ → ℚ) (f g : Frame → ℚ) (l : List Frame) :
    List.zipWith h (l.map f) (l.map g) = l.map fun x => h (f x) (g x) := by
  induction l with
  | nil => rfl
  | cons a t ih => simp [ih]

theorem frameSum_def : frameSum = fun f => f.tl + f.tr + f.bl + f.br := rfl

theorem calculate_metrics_weight_kg (l : List Frame) :
    (calculate_metrics l).weight_kg = preAdjustTotal l := by
  simp [calculate_metrics, preAdjustTotal, zipWith_map_same, frameSum_def]

theorem calculate_metrics_lr (l : List Frame) :
    (calculate_metrics l).left_right_diff = |lrSigned l| ∧
      (calculate_metrics l).lr_diff_percent = |lrSigned l| / preAdjustTotal l * 100 ∧
      (calculate_metrics l).lr_side = if 0 < lrSigned l then "Left" else "Right" := by
  refine ⟨?_, ?_, ?_⟩ <;>
    simp [calculate_metrics, preAdjustTotal, lrSigned, zipWith_map_same, frameSum_def]

theorem calculate_metrics_fb (l : List Frame) :
    (calculate_metrics l).front_back_diff = |fbSigned l| ∧
      (calculate_metrics l).fb_diff_percent = |fbSigned l| / preAdjustTotal l * 100 ∧
      (calculate_metrics l).fb_side = if 0 < fbSigned l then "Front" else "Back" := by
  refine ⟨?_, ?_, ?_⟩ <;>
    simp [calculate_metrics, preAdjustTotal, fbSigned, zipWith_map_same, frameSum_def]

/-- The median is invariant under permutation of its input list. -/
theorem median_perm {l l' : List ℚ} (h : l.Perm l') : median l = median l' := by
  have hlen : l.length = l'.length := h.length_eq
  have hsort : List.insertionSort (· ≤ ·) l = List.insertionSort (· ≤ ·) l' :=
    List.eq_of_perm_of_sorted
      ((List.perm_insertionSort _ l).trans
        (h.trans (List.perm_insertionSort _ l').symm))
      (List.sorted_insertionSort _ l) (List.sorted_insertionSort _ l')
  simp only [median, hlen, hsort]

theorem range_map_shift (g : Nat → Frame) (i n : Nat) :
    (List.range (n + 1)).map (fun d => g (i + d)) =
      g i :: (List.range n).map fun d => g (i + 1 + d) := by
  rw [List.range_succ_eq_map]
  simp only [List.map_cons, Nat.add_zero, List.map_map]
  congr 1
  apply List.map_congr_left
  intro d _
  simp only [Function.comp_apply]
  congr 1
  omega

/-- If every measurement from index `i` on (for `fuel` steps) is at or above
the threshold, the loop appends all of them. -/
theorem readDataGo_all_ge (source : Nat → Frame) (T : ℚ) :
    ∀ fuel i acc, (∀ d, d < fuel → T ≤ frameSum (source (i + d))) →
      readDataGo source T fuel i acc =
        acc ++ (List.range fuel).map fun d => source (i + d) := by
  intro fuel
  induction fuel with
  | zero => intro i acc _; simp [readDataGo]
  | succ k ih =>
    intro i acc h
    have hge : T ≤ frameSum (source i) := by
      simpa using h 0 (Nat.succ_pos k)
    rw [readDataGo, if_neg (fun hcon => absurd hcon.2 (not_lt.mpr hge))]
    rw [ih (i + 1) (acc ++ [source i]) ?_]
    · rw [range_map_shift source i k, List.append_assoc]
      rfl
    · intro d hd
      have := h (d + 1) (by omega)
      simpa [show i + (d + 1) = i + 1 + d by omega] using this

/-- If the first sub-threshold measurement after index `i` is at offset `d0`
(within the fuel budget) and something has already been collected, the loop
appends exactly the measurements before it and stops. -/
theorem readDataGo_stops (source : Nat → Frame) (T : ℚ) :
    ∀ d0 fuel i acc, d0 < fuel → 0 < acc.length →
      frameSum (source (i + d0)) < T →
      (∀ d, d < d0 → T ≤ frameSum (source (i + d))) →
      readDataGo source T fuel i acc =
        acc ++ (List.range d0).map fun d => source (i + d) := by
  intro d0
  induction d0 with
  | zero =>
    intro fuel i acc hfuel hacc hstop _
    obtain ⟨k, rfl⟩ : ∃ k, fuel = k + 1 := ⟨fuel - 1, by omega⟩
    rw [readDataGo, if_pos ⟨hacc, by simpa using hstop⟩]
    simp
  | succ m ih =>
    intro fuel i acc hfuel hacc hstop h
    obtain ⟨k, rfl⟩ : ∃ k, fuel = k + 1 := ⟨fuel - 1, by omega⟩
    have hge : T ≤ frameSum (source i) := by
      simpa using h 0 (Nat.succ_pos m)
    rw [readDataGo, if_neg (fun hcon => absurd hcon.2 (not_lt.mpr hge))]
    rw [ih k (i + 1) (acc ++ [source i]) (by omega) (by simp) ?_ ?_]
    · rw [range_map_shift source i m, List.append_assoc]
      rfl
    · simpa [show i + 1 + m = i + (m + 1) by omega] using hstop
    · intro d hd
      have := h (d + 1) (by omega)
      simpa [show i + (d + 1) = i + 1 + d by omega] using this

/-- The loop only ever appends to its accumulator. -/
theorem readDataGo_prefix (source : Nat → Frame) (T : ℚ) :
    ∀ fuel i acc, ∃ r, readDataGo source T fuel i acc = acc ++ r := by
  intro fuel
  induction fuel with
  | zero => intro i acc; exact ⟨[], by simp [readDataGo]⟩
  | succ k ih =>
    intro i acc
    rw [readDataGo]
    by_cases hc : 0 < acc.length ∧ frameSum (source i) < T
    · exact ⟨[], by simp [if_pos hc]⟩
    · obtain ⟨r, hr⟩ := ih (i + 1) (acc ++ [source i])
      exact ⟨source i :: r, by rw [if_neg hc, hr, List.append_assoc]; rfl⟩

/-- The loop appends at most `fuel` frames. -/
theorem readDataGo_length (source : Nat → Frame) (T : ℚ) :
    ∀ fuel i acc, (readDataGo source T fuel i acc).length ≤ acc.length + fuel := by
  intro fuel
  induction fuel with
  | zero => intro i acc; simp [readDataGo]
  | succ k ih =>
    intro i acc
    rw [readDataGo]
    by_cases hc : 0 < acc.length ∧ frameSum (source i) < T
    · rw [if_pos hc]; omega
    · rw [if_neg hc]
      have := ih (i + 1) (acc ++ [source i])
      simp only [List.length_append, List.length_singleton] at this
      omega

/-- Every frame the loop appends at a position other than 0 passed the
threshold check. -/
theorem readDataGo_tail_ge (source : Nat → Frame) (T : ℚ) (dflt : Frame) :
    ∀ fuel i acc,
      (∀ p, 1 ≤ p → p < acc.length → T ≤ frameSum (acc.getD p dflt)) →
      ∀ p, 1 ≤ p → p < (readDataGo source T fuel i acc).length →
        T ≤ frameSum ((readDataGo source T fuel i acc).getD p dflt) := by
  intro fuel
  induction fuel with
  | zero => intro i acc hacc; simpa [readDataGo] using hacc
  | succ k ih =>
    intro i acc hacc
    rw [readDataGo]
    by_cases hc : 0 < acc.length ∧ frameSum (source i) < T
    · rw [if_pos hc]; exact hacc
    · rw [if_neg hc]
      apply ih (i + 1) (acc ++ [source i])
      intro p hp1 hplen
      simp only [List.length_append, List.length_singleton] at hplen
      by_cases hplt : p < acc.length
      · rw [List.getD_append _ _ _ _ hplt]
        exact hacc p hp1 hplt
      · have hpeq : p = acc.length := by omega
        have hpos : 0 < acc.length := by omega
        have hge : T ≤ frameSum (source i) := by
          rcases not_and_or.mp hc with h | h
          · exact absurd hpos h
          · exact not_lt.mp h
        rw [List.getD_append_right _ _ _ _ (by omega)]
        simpa [hpeq] using hge

/-- Unfolding the first loop iteration: the accumulator is empty, so the
threshold guard cannot fire and the first measurement is always appended. -/
theorem read_data_succ (source : Nat → Frame) (T : ℚ) (k : Nat) :
    read_data source (k + 1) T = readDataGo source T k 1 [source 0] := by
  rw [read_data, readDataGo, if_neg (by simp)]
  norm_num

theorem cons_range_map (source : Nat → Frame) (k : Nat) :
    source 0 :: ((List.range k).map fun d => source (1 + d)) =
      (List.range (k + 1)).map source := by
  have h := range_map_shift source 0 k
  simp only [Nat.zero_add] at h
  exact h.symm

/-- C1: the claim says a SampleSet whose pre-adjust median total weight is
zero is rejected with a "zero total weight" domain error.  The code has no
such check: `calculate_metrics` divides by the median total unconditionally
and returns a record.  On the all-zero SampleSet it returns a fully defined
record (in the rational model division by zero yields 0; NumPy yields
`nan`); no error path exists in the function. -/
theorem c1_zero_total_weight_returns_record :
    calculate_metrics (List.replicate 4 ⟨0, 0, 0, 0⟩) =
      { weight_kg := 0, left_right_diff := 0, front_back_diff := 0,
        lr_diff_percent := 0, fb_diff_percent := 0,
        lr_side := "Right", fb_side := "Back" } := by
  norm_num [calculate_metrics, median, List.insertionSort, List.orderedInsert,
    List.replicate]

/-- C2: with at least one sample requested, (a) if no measurement at an index
from 1 to N-1 is below the threshold, sampling returns exactly the first N
frames; (b) if the first sub-threshold measurement after index 0 is at index
j < N, sampling returns exactly the first j frames, so the result has length
at least 1 and fewer than N and the sub-threshold frame is not appended;
(c) the first frame is always appended, with no threshold check. -/
theorem c2_sampling_termination (source : Nat → Frame) (N : Nat) (T : ℚ)
    (hN : 1 ≤ N) :
    ((∀ i, 1 ≤ i → i < N → T ≤ frameSum (source i)) →
        read_data source N T = (List.range N).map source ∧
          (read_data source N T).length = N) ∧
    (∀ j, 1 ≤ j → j < N → frameSum (source j) < T →
        (∀ i, 1 ≤ i → i < j → T ≤ frameSum (source i)) →
        read_data source N T = (List.range j).map source ∧
          1 ≤ (read_data source N T).length ∧
          (read_data source N T).length < N) ∧
    (read_data source N T).head? = some (source 0) := by
  obtain ⟨k, rfl⟩ : ∃ k, N = k + 1 := ⟨N - 1, by omega⟩
  refine ⟨?_, ?_, ?_⟩
  · intro h
    have hall : ∀ d, d < k → T ≤ frameSum (source (1 + d)) := fun d hd =>
      h (1 + d) (by omega) (by omega)
    have := readDataGo_all_ge source T k 1 [source 0] hall
    rw [read_data_succ, this]
    have hform : ([source 0] ++ (List.range k).map fun d => source (1 + d)) =
        (List.range (k + 1)).map source := by
      rw [List.singleton_append, cons_range_map]
    rw [hform]
    exact ⟨rfl, by simp⟩
  · intro j hj1 hj2 hstop hbefore
    obtain ⟨m, rfl⟩ : ∃ m, j = m + 1 := ⟨j - 1, by omega⟩
    have hres := readDataGo_stops source T m k 1 [source 0] (by omega)
      (by simp) (by simpa [show 1 + m = m + 1 by omega] using hstop)
      (fun d hd => hbefore (1 + d) (by omega) (by omega))
    rw [read_data_succ, hres]
    have hform : ([source 0] ++ (List.range m).map fun d => source (1 + d)) =
        (List.range (m + 1)).map source := by
      rw [List.singleton_append, cons_range_map]
    rw [hform]
    refine ⟨rfl, by simp, by simp; omega⟩
  · obtain ⟨r, hr⟩ := readDataGo_prefix source T k 1 [source 0]
    rw [read_data_succ, hr]
    simp

/-- C3: the reported total weight is the median of the per-frame channel
sums plus the adjustment, and it is invariant under permutation of the
frames. -/
theorem c3_total_weight_median_adjust (l l' : List Frame) (adjust : ℚ)
    (_hne : l ≠ []) (hperm : l.Perm l') :
    (adjusted_metrics l adjust).weight_kg = preAdjustTotal l + adjust ∧
    (adjusted_metrics l adjust).weight_kg = (adjusted_metrics l' adjust).weight_kg := by
  have h1 : ∀ m : List Frame,
      (adjusted_metrics m adjust).weight_kg = preAdjustTotal m + adjust := by
    intro m
    simp [adjusted_metrics, calculate_metrics_weight_kg]
  refine ⟨h1 l, ?_⟩
  have hmed : preAdjustTotal l = preAdjustTotal l' := median_perm (hperm.map frameSum)
  rw [h1 l, h1 l', hmed]

/-- C4: both imbalance percentages equal the corresponding magnitude divided
by the pre-adjustment median total weight, times 100; the adjustment has no
effect on either percentage. -/
theorem c4_percentages_pre_adjust (l : List Frame) (a a' : ℚ) (_hne : l ≠ []) :
    (adjusted_metrics l a).lr_diff_percent
        = (adjusted_metrics l a).left_right_diff / preAdjustTotal l * 100 ∧
    (adjusted_metrics l a).fb_diff_percent
        = (adjusted_metrics l a).front_back_diff / preAdjustTotal l * 100 ∧
    (adjusted_metrics l a).lr_diff_percent = (adjusted_metrics l a').lr_diff_percent ∧
    (adjusted_metrics l a).fb_diff_percent = (adjusted_metrics l a').fb_diff_percent := by
  obtain ⟨hl1, hl2, -⟩ := calculate_metrics_lr l
  obtain ⟨hf1, hf2, -⟩ := calculate_metrics_fb l
  refine ⟨?_, ?_, ?_, ?_⟩ <;> simp [adjusted_metrics, hl1, hl2, hf1, hf2]

/-- C5: the left/right label is "Left" iff the median of the per-frame
(TL+BL)-(TR+BR) differences is strictly positive and "Right" otherwise
(tie gives "Right"); the front/back label is "Front" iff the median of the
per-frame (TL+TR)-(BL+BR) differences is strictly positive and "Back"
otherwise (tie gives "Back"); exactly one label per axis is produced. -/
theorem c5_side_labels (l : List Frame) (_hne : l ≠ []) :
    ((calculate_metrics l).lr_side = "Left" ↔ 0 < lrSigned l) ∧
    ((calculate_metrics l).lr_side = "Right" ↔ ¬0 < lrSigned l) ∧
    ((calculate_metrics l).fb_side = "Front" ↔ 0 < fbSigned l) ∧
    ((calculate_metrics l).fb_side = "Back" ↔ ¬0 < fbSigned l) ∧
    ((calculate_metrics l).lr_side = "Left" ∨ (calculate_metrics l).lr_side = "Right") ∧
    ¬((calculate_metrics l).lr_side = "Left" ∧ (calculate_metrics l).lr_side = "Right") ∧
    ((calculate_metrics l).fb_side = "Front" ∨ (calculate_metrics l).fb_side = "Back") ∧
    ¬((calculate_metrics l).fb_side = "Front" ∧ (calculate_metrics l).fb_side = "Back") := by
  obtain ⟨-, -, hside⟩ := calculate_metrics_lr l
  obtain ⟨-, -, hfside⟩ := calculate_metrics_fb l
  rw [hside, hfside]
  by_cases h1 : 0 < lrSigned l <;> by_cases h2 : 0 < fbSigned l <;>
    simp [h1, h2]

/-- C6: selecting lbs multiplies exactly the three weight-denominated fields
of the conversion step (total, left/right magnitude, front/back magnitude)
by 2.20462 relative to kg, while the percentage fields and side labels of
the formatted records are identical between kg and lbs. -/
theorem c6_unit_conversion (m : Metrics) (ts : String) :
    (format_conversions m true).weight = (format_conversions m false).weight * KG_TO_LBS ∧
    (format_conversions m true).lr_diff = (format_conversions m false).lr_diff * KG_TO_LBS ∧
    (format_conversions m true).fb_diff = (format_conversions m false).fb_diff * KG_TO_LBS ∧
    (format_output m true ts).coronal.percentage
        = (format_output m false ts).coronal.percentage ∧
    (format_output m true ts).saggital.percentage
        = (format_output m false ts).saggital.percentage ∧
    (format_output m true ts).coronal.increased_weight
        = (format_output m false ts).coronal.increased_weight ∧
    (format_output m true ts).saggital.increased_weight
        = (format_output m false ts).saggital.increased_weight := by
  refine ⟨?_, ?_, ?_, ?_, ?_, ?_, ?_⟩ <;> simp [format_output, format_conversions]

/-- C7: the structured record carries the timestamp captured at formatting
time, the active unit string, the total weight rounded to 2 decimals, and
two plane sub-records each holding the side label, the magnitude rounded to
2 decimals and the percentage rounded to 1 decimal. -/
theorem c7_output_record_structure (m : Metrics) (use_lbs : Bool) (ts : String) :
    (format_output m use_lbs ts).timestamp = ts ∧
    (format_output m use_lbs ts).units = (if use_lbs then "lbs" else "kg") ∧
    (format_output m use_lbs ts).total_weight
        = round2 (m.weight_kg * (if use_lbs then KG_TO_LBS else 1)) ∧
    (format_output m use_lbs ts).coronal =
      { increased_weight := m.lr_side
        value := round2 (m.left_right_diff * (if use_lbs then KG_TO_LBS else 1))
        percentage := round1 m.lr_diff_percent } ∧
    (format_output m use_lbs ts).saggital =
      { increased_weight := m.fb_side
        value := round2 (m.front_back_diff * (if use_lbs then KG_TO_LBS else 1))
        percentage := round1 m.fb_diff_percent } := by
  cases use_lbs <;> simp [format_output, format_conversions]

/-- C8: in weight_only mode the session emits just the post-adjust total
weight rounded to one decimal as a scalar; it never produces a structured
record, so no timestamp, plane sub-records or unit field exist. -/
theorem c8_weight_only_scalar (l : List Frame) (a : ℚ) (use_lbs : Bool)
    (ts : String) (_hne : l ≠ []) :
    measure_weight l a true use_lbs ts
        = SessionOutput.weightOnly (round1 (preAdjustTotal l + a)) ∧
    ∀ r, measure_weight l a true use_lbs ts ≠ SessionOutput.structured r := by
  constructor
  · simp [measure_weight, adjusted_metrics, calculate_metrics_weight_kg]
  · intro r
    simp [measure_weight]

/-- C9: in weight_only mode the unit selector (and the formatting timestamp)
is ignored: the emitted weight is the post-adjust kilogram value, never
multiplied by 2.20462, even when lbs is selected. -/
theorem c9_weight_only_ignores_units (l : List Frame) (a : ℚ)
    (u u' : Bool) (ts ts' : String) (_hne : l ≠ []) :
    measure_weight l a true u ts = measure_weight l a true u' ts' ∧
    measure_weight l a true true ts
        = SessionOutput.weightOnly (round1 (preAdjustTotal l + a)) := by
  constructor
  · simp [measure_weight]
  · simp [measure_weight, adjusted_metrics, calculate_metrics_weight_kg]

/-- C10: every SampleSet the sampling loop returns has length at most the
requested count, and every frame at a position other than 0 has channel sum
at least the threshold. -/
theorem c10_sample_set_invariants (source : Nat → Frame) (N : Nat) (T : ℚ) :
    (read_data source N T).length ≤ N ∧
    ∀ p, 1 ≤ p → p < (read_data source N T).length →
      T ≤ frameSum ((read_data source N T).getD p ⟨0, 0, 0, 0⟩) := by
  constructor
  · have h := readDataGo_length source T N 0 []
    simpa [read_data] using h
  · intro p hp1 hp2
    exact readDataGo_tail_ge source T ⟨0, 0, 0, 0⟩ N 0 []
      (fun q hq1 hq2 => absurd hq2 (by simp)) p hp1 hp2

/-- Witness for C2: threshold 20, the first frame (sum 15, below threshold)
is still accepted, the second frame (sum 4) halts collection without being
appended, and the final SampleSet is exactly the first frame. -/
theorem c2_sampling_termination_witness :
    read_data exStopSource 3 20 = [⟨15, 0, 0, 0⟩] ∧
    (read_data exStopSource 3 20).length = 1 := by
  have h := (c2_sampling_termination exStopSource 3 20 (by norm_num)).2.1 1
    (le_refl 1) (by norm_num)
    (by norm_num [exStopSource, frameSum])
    (fun i hi1 hi2 => absurd (lt_of_le_of_lt hi1 hi2) (lt_irrefl 1))
  have hval : (List.range 1).map exStopSource = [⟨15, 0, 0, 0⟩] := by
    norm_num [List.range_succ, exStopSource]
  rw [h.1, hval]
  exact ⟨rfl, rfl⟩

/-- Witness for C3: two two-frame SampleSets that are permutations of each
other, adjust 5; both frame sums are 10, so the reported total is 15. -/
theorem c3_total_weight_median_adjust_witness :
    (adjusted_metrics [exA, exB] 5).weight_kg = preAdjustTotal [exA, exB] + 5 ∧
    (adjusted_metrics [exA, exB] 5).weight_kg
        = (adjusted_metrics [exB, exA] 5).weight_kg ∧
    (adjusted_metrics [exA, exB] 5).weight_kg = 15 := by
  have h := c3_total_weight_median_adjust [exA, exB] [exB, exA] 5
    (by simp) (List.Perm.swap exB exA [])
  refine ⟨h.1, h.2, ?_⟩
  rw [h.1]
  norm_num [preAdjustTotal, exA, exB, frameSum, median,
    List.insertionSort, List.orderedInsert]

/-- Witness for C4 on a one-frame SampleSet with adjusts 5 and -3: the
left/right percentage is 2 / 10 * 100 = 20 under both adjusts. -/
theorem c4_percentages_pre_adjust_witness :
    (adjusted_metrics [exA] 5).lr_diff_percent
        = (adjusted_metrics [exA] 5).left_right_diff / preAdjustTotal [exA] * 100 ∧
    (adjusted_metrics [exA] 5).lr_diff_percent
        = (adjusted_metrics [exA] (-3)).lr_diff_percent ∧
    (adjusted_metrics [exA] 5).lr_diff_percent = 20 := by
  have h := c4_percentages_pre_adjust [exA] 5 (-3) (by simp)
  refine ⟨h.1, h.2.2.1, ?_⟩
  norm_num [adjusted_metrics, calculate_metrics, exA, median,
    List.insertionSort, List.orderedInsert]

/-- Witness for C5, the tie case: one perfectly balanced frame gives signed
medians 0 on both axes, and the labels default to "Right" and "Back". -/
theorem c5_side_labels_witness :
    (calculate_metrics [⟨5, 5, 5, 5⟩]).lr_side = "Right" ∧
    (calculate_metrics [⟨5, 5, 5, 5⟩]).fb_side = "Back" := by
  have h := c5_side_labels [⟨5, 5, 5, 5⟩] (by simp)
  have hlr : ¬0 < lrSigned [⟨5, 5, 5, 5⟩] := by
    norm_num [lrSigned, median, List.insertionSort, List.orderedInsert]
  have hfb : ¬0 < fbSigned [⟨5, 5, 5, 5⟩] := by
    norm_num [fbSigned, median, List.insertionSort, List.orderedInsert]
  exact ⟨h.2.1.mpr hlr, h.2.2.2.1.mpr hfb⟩

/-- Witness for C8: one frame of total 10, adjust 2, lbs selected: the
session emits the scalar 12.0 and no structured record. -/
theorem c8_weight_only_scalar_witness :
    measure_weight [exA] 2 true true "t"
        = SessionOutput.weightOnly (round1 (preAdjustTotal [exA] + 2)) ∧
    measure_weight [exA] 2 true true "t"
        ≠ SessionOutput.structured (format_output (adjusted_metrics [exA] 2) true "t") ∧
    measure_weight [exA] 2 true true "t" = SessionOutput.weightOnly 12 := by
  have h := c8_weight_only_scalar [exA] 2 true "t" (by simp)
  refine ⟨h.1, h.2 _, ?_⟩
  rw [h.1]
  norm_num [preAdjustTotal, exA, frameSum, median, List.insertionSort,
    List.orderedInsert, round1, roundHalfEven]

/-- Witness for C9: with lbs selected the weight_only output equals the kg
output, the scalar 12 = 10 + 2 with no 2.20462 factor. -/
theorem c9_weight_only_ignores_units_witness :
    measure_weight [exA] 2 true true "t" = measure_weight [exA] 2 true false "u" ∧
    measure_weight [exA] 2 true true "t"
        = SessionOutput.weightOnly (round1 (preAdjustTotal [exA] + 2)) :=
  c9_weight_only_ignores_units [exA] 2 true false "t" "u" (by simp)

/-- Witness for C10: a stream of frames of sum 44 with N = 2, threshold 5:
the result has length at most 2 and its frame at position 1 passed the
threshold. -/
theorem c10_sample_set_invariants_witness :
    (read_data exFullSource 2 5).length ≤ 2 ∧
    5 ≤ frameSum ((read_data exFullSource 2 5).getD 1 ⟨0, 0, 0, 0⟩) := by
  have h := c10_sample_set_invariants exFullSource 2 5
  have hlen : (read_data exFullSource 2 5).length = 2 := by
    norm_num [read_data, readDataGo, exFullSource, frameSum]
  exact ⟨h.1, h.2 1 (le_refl 1) (by omega)⟩
